import Mathlib

/-!
Verification of the quTAG TDC stream-processing and correlation engine
against its public interface (tdcbase.h, tdchg2.h).

The vendor implementation itself ships only as a binary library, so all
executable definitions below are modelled from the specification and from
the contract stated in the header documentation. Each such definition
carries a doc comment naming its source.
-/

namespace TDC

/-- Return codes of the library, mirroring the error kinds of the interface
(`TDC_Ok`, `TDC_InvalidParameter`, `TDC_NotEnabled`, ...). -/
inductive Rc where
  | ok
  | invalidParameter
  | notEnabled
  | ioError
  deriving DecidableEq, Repr

/-- Output file format, mirroring the C enum `TDC_FileFormat` of tdcbase.h:
ASCII, BINARY (40B header + 10B records), COMPRESSED (40B header + 5B
records), RAW (BINARY without header), NONE. -/
inductive FileFormat where
  | ascii
  | binary
  | compressed
  | raw
  | none
  deriving DecidableEq, Repr

/-- Device type, mirroring the C enum `TDC_DevType`. -/
inductive DevType where
  | qutagMC
  | qutagHR
  | noDevice
  deriving DecidableEq, Repr

/-- One timestamped event: timestamp in ps (int64 in the interface) and a
channel number (0 = start input, 1..32 = stop channels, 100..108 = markers
and timer tick). -/
structure Event where
  timestamp : Int
  channel : Nat
  deriving DecidableEq, Repr

/-- Channel numbers occurring in the event stream: 0 is the start input,
1..32 are the stop channels, 100..108 are markers and the timer tick. -/
def validStreamChannel (c : Nat) : Prop :=
  c = 0 ∨ (1 ≤ c ∧ c ≤ 32) ∨ (100 ≤ c ∧ c ≤ 108)

instance (c : Nat) : Decidable (validStreamChannel c) := by
  unfold validStreamChannel; infer_instance

/-! ## Little-endian byte strings -/

/-- Little-endian byte encoding of a natural number into `w` bytes
(truncating to `w` bytes, as the C code stores fixed-width fields). -/
def toBytesLE : Nat → Nat → List Nat
  | 0, _ => []
  | w + 1, v => v % 256 :: toBytesLE w (v / 256)

/-- Little-endian byte decoding. -/
def fromBytesLE : List Nat → Nat
  | [] => 0
  | b :: bs => b + 256 * fromBytesLE bs

@[simp] theorem length_toBytesLE (w v : Nat) : (toBytesLE w v).length = w := by
  induction w generalizing v with
  | zero => rfl
  | succ w ih => simp [toBytesLE, ih]

theorem fromBytesLE_toBytesLE (w v : Nat) :
    fromBytesLE (toBytesLE w v) = v % 256 ^ w := by
  induction w generalizing v with
  | zero => simp [toBytesLE, fromBytesLE, Nat.mod_one]
  | succ w ih =>
    have h256 : (256 : Nat) ^ (w + 1) = 256 * 256 ^ w := by ring
    rw [toBytesLE, fromBytesLE, ih, h256, Nat.mod_mul]

theorem fromBytesLE_toBytesLE_of_lt {w v : Nat} (h : v < 256 ^ w) :
    fromBytesLE (toBytesLE w v) = v := by
  rw [fromBytesLE_toBytesLE, Nat.mod_eq_of_lt h]

/-! ## Timestamp field encoding

Timestamps are signed 64-bit integers stored in two's complement. -/

/-- Two's-complement image of a timestamp in 64 bits. -/
def tsToNat64 (t : Int) : Nat := (t % (2 : Int) ^ 64).toNat

/-- Reading a 64-bit two's-complement value back as a signed integer. -/
def natToTs64 (v : Nat) : Int :=
  if v < 2 ^ 63 then (v : Int) else (v : Int) - 2 ^ 64

theorem tsToNat64_lt (t : Int) : tsToNat64 t < 2 ^ 64 := by
  have h1 : t % (2 : Int) ^ 64 < (2 : Int) ^ 64 :=
    Int.emod_lt_of_pos t (by norm_num)
  have h2 : 0 ≤ t % (2 : Int) ^ 64 := Int.emod_nonneg t (by norm_num)
  unfold tsToNat64
  omega

theorem natToTs64_tsToNat64 {t : Int}
    (hlo : -(2 : Int) ^ 63 ≤ t) (hhi : t < 2 ^ 63) :
    natToTs64 (tsToNat64 t) = t := by
  unfold natToTs64 tsToNat64
  rcases le_or_lt 0 t with hpos | hneg
  · have hmod : t % (2 : Int) ^ 64 = t := Int.emod_eq_of_lt hpos (by norm_num; omega)
    rw [hmod]
    have ht63 : t.toNat < 2 ^ 63 := by omega
    simp only [if_pos ht63]
    omega
  · have hmod : t % (2 : Int) ^ 64 = t + 2 ^ 64 := by
      have := Int.add_mul_emod_self_left (a := t) (b := (2 : Int) ^ 64) (c := 1)
      have heq : t % (2 : Int) ^ 64 = (t + 2 ^ 64) % 2 ^ 64 := by
        rw [← this]; ring_nf
      rw [heq]
      exact Int.emod_eq_of_lt (by norm_num; omega) (by norm_num; omega)
    rw [hmod]
    have hge : ¬ (t + 2 ^ 64).toNat < 2 ^ 63 := by norm_num; omega
    simp only [if_neg hge]
    omega

/-! ## Record encoding (StreamCodec)

Modelled from the spec: the implementation of `TDC_writeTimestamps` /
`TDC_readTimestamps` is not part of the repository sources (only the
declarations in tdcbase.h are), so the codec is modelled from the header
contract: BINARY records are 10 bytes (8-byte little-endian timestamp,
2-byte little-endian channel), COMPRESSED records are 5 bytes (40 bits:
bits 0..36 timestamp mod 2^37, bits 37..39 channel index 0..7), channel
numbers are 0-based in binary formats. -/

/-- Channel field written into binary-format records: stop channels are
0-based ("channel numbers start with 0 in binary formats"), marker
channels 100..108 are stored unchanged. -/
def binChannelField (c : Nat) : Nat := if 100 ≤ c then c else c - 1

/-- Channel number reconstructed from the binary-format channel field. -/
def binChannelOfField (v : Nat) : Nat := if 100 ≤ v then v else v + 1

/-- Channel field written into ASCII records: stop channel numbers are
1-based in the ASCII format. -/
def asciiChannelField (c : Nat) : Nat := c

/-- Encoding of one BINARY/RAW record: 10 bytes, little endian. -/
def encodeBinaryRecord (e : Event) : List Nat :=
  toBytesLE 8 (tsToNat64 e.timestamp) ++ toBytesLE 2 (binChannelField e.channel)

/-- Decoding of one BINARY/RAW record. -/
def decodeBinaryRecord (bytes : List Nat) : Event :=
  { timestamp := natToTs64 (fromBytesLE (bytes.take 8))
    channel := binChannelOfField (fromBytesLE (bytes.drop 8)) }

/-- Encoding of one COMPRESSED record: 40 bits, bit 0..36 timestamp modulo
2^37, bit 37..39 channel index 0..7 (stop channels 1..8). -/
def encodeCompressedRecord (e : Event) : List Nat :=
  toBytesLE 5 ((e.timestamp % (2 : Int) ^ 37).toNat + 2 ^ 37 * (e.channel - 1))

/-- Decoding of one COMPRESSED record. -/
def decodeCompressedRecord (bytes : List Nat) : Event :=
  let v := fromBytesLE bytes
  { timestamp := ((v % 2 ^ 37 : Nat) : Int), channel := v / 2 ^ 37 + 1 }

/-- Timestamp truncation performed by the COMPRESSED writer: the stored
timestamp is the original one reduced modulo 2^37 ps. -/
def compressTruncate (e : Event) : Event :=
  { e with timestamp := e.timestamp % (2 : Int) ^ 37 }

@[simp] theorem length_encodeBinaryRecord (e : Event) :
    (encodeBinaryRecord e).length = 10 := by
  simp [encodeBinaryRecord]

@[simp] theorem length_encodeCompressedRecord (e : Event) :
    (encodeCompressedRecord e).length = 5 := by
  simp [encodeCompressedRecord]

/-- Round trip of a single BINARY record for int64 timestamps and valid
stream channels other than the start input. -/
theorem decodeBinaryRecord_encodeBinaryRecord {e : Event}
    (hlo : -(2 : Int) ^ 63 ≤ e.timestamp) (hhi : e.timestamp < 2 ^ 63)
    (hc : (1 ≤ e.channel ∧ e.channel ≤ 32) ∨ (100 ≤ e.channel ∧ e.channel ≤ 108)) :
    decodeBinaryRecord (encodeBinaryRecord e) = e := by
  have hlen : (toBytesLE 8 (tsToNat64 e.timestamp)).length = 8 := length_toBytesLE _ _
  have htake : (encodeBinaryRecord e).take 8 = toBytesLE 8 (tsToNat64 e.timestamp) := by
    rw [encodeBinaryRecord, List.take_append_of_le_length (by omega), List.take_of_length_le (by omega)]
  have hdrop : (encodeBinaryRecord e).drop 8 = toBytesLE 2 (binChannelField e.channel) := by
    rw [encodeBinaryRecord, List.drop_append_of_le_length (by omega), List.drop_of_length_le (by omega)]
    simp
  have hts : fromBytesLE ((encodeBinaryRecord e).take 8) = tsToNat64 e.timestamp := by
    rw [htake, fromBytesLE_toBytesLE_of_lt]
    exact tsToNat64_lt e.timestamp
  have hchfield : binChannelField e.channel < 256 ^ 2 := by
    unfold binChannelField; split <;> omega
  have hch : fromBytesLE ((encodeBinaryRecord e).drop 8) = binChannelField e.channel := by
    rw [hdrop, fromBytesLE_toBytesLE_of_lt hchfield]
  unfold decodeBinaryRecord
  rw [hts, hch, natToTs64_tsToNat64 hlo hhi]
  have : binChannelOfField (binChannelField e.channel) = e.channel := by
    unfold binChannelField binChannelOfField
    rcases hc with ⟨h1, h2⟩ | ⟨h1, h2⟩
    · rw [if_neg (show ¬ 100 ≤ e.channel by omega),
        if_neg (show ¬ 100 ≤ e.channel - 1 by omega)]
      omega
    · rw [if_pos (show 100 ≤ e.channel by omega),
        if_pos (show 100 ≤ e.channel by omega)]
  rw [this]

/-- Round trip of a single COMPRESSED record: the channel (1..8) is exact,
the timestamp comes back reduced modulo 2^37. -/
theorem decodeCompressedRecord_encodeCompressedRecord {e : Event}
    (hc1 : 1 ≤ e.channel) (hc8 : e.channel ≤ 8) :
    decodeCompressedRecord (encodeCompressedRecord e) = compressTruncate e := by
  have hts0 : 0 ≤ e.timestamp % (2 : Int) ^ 37 := Int.emod_nonneg _ (by norm_num)
  have htslt : e.timestamp % (2 : Int) ^ 37 < 2 ^ 37 := Int.emod_lt_of_pos _ (by norm_num)
  set a : Nat := (e.timestamp % (2 : Int) ^ 37).toNat with ha
  have halt : a < 2 ^ 37 := by omega
  have hv : a + 2 ^ 37 * (e.channel - 1) < 256 ^ 5 := by
    have : e.channel - 1 ≤ 7 := by omega
    calc a + 2 ^ 37 * (e.channel - 1) < 2 ^ 37 + 2 ^ 37 * 7 := by
          have := Nat.mul_le_mul_left (2 ^ 37) this
          omega
      _ ≤ 256 ^ 5 := by norm_num
  unfold decodeCompressedRecord encodeCompressedRecord compressTruncate
  rw [fromBytesLE_toBytesLE_of_lt hv]
  have hmod : (a + 2 ^ 37 * (e.channel - 1)) % 2 ^ 37 = a :=
    by rw [Nat.add_mul_mod_self_left, Nat.mod_eq_of_lt halt]
  have hdiv : (a + 2 ^ 37 * (e.channel - 1)) / 2 ^ 37 = e.channel - 1 := by
    rw [Nat.add_mul_div_left _ _ (by norm_num : 0 < 2 ^ 37), Nat.div_eq_of_lt halt]
    omega
  simp only [hmod, hdiv, Event.mk.injEq]
  constructor
  · omega
  · omega

/-! ## File header and whole-file codec -/

/-- Numeric code of a file format, mirroring the order of the C enum. -/
def formatCode : FileFormat → Nat
  | .ascii => 0
  | .binary => 1
  | .compressed => 2
  | .raw => 3
  | .none => 4

/-- Magic identifier opening the 40-byte header of the binary formats.
Modelled from the spec: the concrete byte values of the magic are not part
of the repository sources; any fixed recognizable value serves the model. -/
def headerMagic : List Nat := [84, 68, 67, 56]

/-- The 40-byte header of the binary formats. Modelled from the spec: it
carries a magic identifier, a format code, a format version, the
device-feature flags and reserved fields, 40 bytes in total. -/
def fileHeader (fmt : FileFormat) (flags : Nat) : List Nat :=
  headerMagic ++ [formatCode fmt, 1] ++ toBytesLE 4 flags ++ List.replicate 30 0

@[simp] theorem length_fileHeader (fmt : FileFormat) (flags : Nat) :
    (fileHeader fmt flags).length = 40 := by
  simp [fileHeader, headerMagic]

/-- Header recognition by the reader: a file has a valid header when it is
at least 40 bytes long, starts with the magic, and its format byte denotes
one of the formats written with a header (BINARY or COMPRESSED). The
recognized format and the device-feature flags are returned. -/
def parseHeader (bytes : List Nat) : Option (FileFormat × Nat) :=
  match bytes with
  | m0 :: m1 :: m2 :: m3 :: fc :: _ver :: rest =>
    if [m0, m1, m2, m3] = headerMagic ∧ 34 ≤ rest.length then
      if fc = formatCode .binary then some (.binary, fromBytesLE (rest.take 4))
      else if fc = formatCode .compressed then some (.compressed, fromBytesLE (rest.take 4))
      else Option.none
    else Option.none
  | _ => Option.none

/-- Decoding of a stream of 10-byte BINARY/RAW records. -/
def decodeBinaryRecords (bytes : List Nat) : List Event :=
  if _h : 10 ≤ bytes.length then
    decodeBinaryRecord (bytes.take 10) :: decodeBinaryRecords (bytes.drop 10)
  else []
termination_by bytes.length
decreasing_by simp only [List.length_drop]; omega

/-- Decoding of a stream of 5-byte COMPRESSED records. -/
def decodeCompressedRecords (bytes : List Nat) : List Event :=
  if _h : 5 ≤ bytes.length then
    decodeCompressedRecord (bytes.take 5) :: decodeCompressedRecords (bytes.drop 5)
  else []
termination_by bytes.length
decreasing_by simp only [List.length_drop]; omega

/-- Whether the COMPRESSED writer stores an event: only stop channels 1..8
are supported, no marker events and no timer ticks. -/
def compressible (e : Event) : Bool := decide (1 ≤ e.channel ∧ e.channel ≤ 8)

/-- File contents produced by `TDC_writeTimestamps` for a given format.
Modelled from the spec: ASCII is a text format the (binary-only) reader
does not accept, so it is not modelled at byte level. -/
def writeTimestamps (fmt : FileFormat) (flags : Nat) (evts : List Event) :
    Option (List Nat) :=
  match fmt with
  | .binary => some (fileHeader .binary flags ++ (evts.map encodeBinaryRecord).flatten)
  | .compressed => some (fileHeader .compressed flags ++
      ((evts.filter compressible).map encodeCompressedRecord).flatten)
  | .raw => some ((evts.map encodeBinaryRecord).flatten)
  | _ => Option.none

/-- Behaviour of `TDC_readTimestamps` on file contents. Modelled from the
spec and the header contract: when the file carries a valid 40-byte header,
the format and the device-feature flags are taken from the header and the
caller-supplied format is ignored; otherwise the caller-supplied format is
used and must be the binary format without header (RAW). The result is the
format actually used, the feature flags in effect, and the decoded events. -/
def readTimestamps (bytes : List Nat) (fmt : FileFormat) :
    Except Rc (FileFormat × Nat × List Event) :=
  match parseHeader bytes with
  | some (.compressed, flags) => .ok (.compressed, flags, decodeCompressedRecords (bytes.drop 40))
  | some (hfmt, flags) => .ok (hfmt, flags, decodeBinaryRecords (bytes.drop 40))
  | Option.none =>
    if fmt = .raw then .ok (.raw, 0, decodeBinaryRecords bytes)
    else .error .invalidParameter

/-! ### Round-trip lemmas for record streams -/

theorem decodeBinaryRecords_nil : decodeBinaryRecords [] = [] := by
  rw [decodeBinaryRecords]; simp

theorem decodeBinaryRecords_cons (e : Event) (rest : List Nat) :
    decodeBinaryRecords (encodeBinaryRecord e ++ rest) =
      decodeBinaryRecord (encodeBinaryRecord e) :: decodeBinaryRecords rest := by
  have hlen : (encodeBinaryRecord e).length = 10 := length_encodeBinaryRecord e
  have h1 : (encodeBinaryRecord e ++ rest).take 10 = encodeBinaryRecord e := by
    rw [← hlen, List.take_left]
  have h2 : (encodeBinaryRecord e ++ rest).drop 10 = rest := by
    rw [← hlen, List.drop_left]
  rw [decodeBinaryRecords, dif_pos (by simp [hlen]), h1, h2]

theorem decodeCompressedRecords_nil : decodeCompressedRecords [] = [] := by
  rw [decodeCompressedRecords]; simp

theorem decodeCompressedRecords_cons (e : Event) (rest : List Nat) :
    decodeCompressedRecords (encodeCompressedRecord e ++ rest) =
      decodeCompressedRecord (encodeCompressedRecord e) :: decodeCompressedRecords rest := by
  have hlen : (encodeCompressedRecord e).length = 5 := length_encodeCompressedRecord e
  have h1 : (encodeCompressedRecord e ++ rest).take 5 = encodeCompressedRecord e := by
    rw [← hlen, List.take_left]
  have h2 : (encodeCompressedRecord e ++ rest).drop 5 = rest := by
    rw [← hlen, List.drop_left]
  rw [decodeCompressedRecords, dif_pos (by simp [hlen]), h1, h2]

/-- Round trip of a whole BINARY record stream. -/
theorem decodeBinaryRecords_encode (evts : List Event)
    (hval : ∀ e ∈ evts, -(2 : Int) ^ 63 ≤ e.timestamp ∧ e.timestamp < 2 ^ 63 ∧
      ((1 ≤ e.channel ∧ e.channel ≤ 32) ∨ (100 ≤ e.channel ∧ e.channel ≤ 108))) :
    decodeBinaryRecords ((evts.map encodeBinaryRecord).flatten) = evts := by
  induction evts with
  | nil => simpa using decodeBinaryRecords_nil
  | cons e rest ih =>
    have he := hval e (List.mem_cons_self e rest)
    rw [List.map_cons, List.flatten_cons, decodeBinaryRecords_cons,
      decodeBinaryRecord_encodeBinaryRecord he.1 he.2.1 he.2.2,
      ih (fun x hx => hval x (List.mem_cons_of_mem e hx))]

/-- Round trip of a whole COMPRESSED record stream: the decoded sequence is
the original one with timestamps truncated modulo 2^37. -/
theorem decodeCompressedRecords_encode (evts : List Event)
    (hval : ∀ e ∈ evts, 1 ≤ e.channel ∧ e.channel ≤ 8) :
    decodeCompressedRecords ((evts.map encodeCompressedRecord).flatten) =
      evts.map compressTruncate := by
  induction evts with
  | nil => simpa using decodeCompressedRecords_nil
  | cons e rest ih =>
    have he := hval e (List.mem_cons_self e rest)
    rw [List.map_cons, List.flatten_cons, decodeCompressedRecords_cons,
      decodeCompressedRecord_encodeCompressedRecord he.1 he.2,
      ih (fun x hx => hval x (List.mem_cons_of_mem e hx)), List.map_cons]

theorem parseHeader_fileHeader (fmt : FileFormat) (flags : Nat) (body : List Nat)
    (hfmt : fmt = .binary ∨ fmt = .compressed) (hf : flags < 2 ^ 32) :
    parseHeader (fileHeader fmt flags ++ body) = some (fmt, flags) := by
  have h256 : (256 : Nat) ^ 4 = 2 ^ 32 := by norm_num
  have hlist : fileHeader fmt flags ++ body
      = 84 :: 68 :: 67 :: 56 :: formatCode fmt :: 1 ::
        (toBytesLE 4 flags ++ (List.replicate 30 0 ++ body)) := by
    simp [fileHeader, headerMagic]
  have htake4 : (toBytesLE 4 flags ++ (List.replicate 30 0 ++ body)).take 4
      = toBytesLE 4 flags := by
    rw [List.take_append_of_le_length (by simp)]
    exact List.take_of_length_le (by simp)
  rw [hlist, parseHeader]
  rw [if_pos (by refine ⟨rfl, ?_⟩; simp; omega)]
  rcases hfmt with h | h <;> subst h <;>
    simp [formatCode, htake4, fromBytesLE_toBytesLE_of_lt (by omega : flags < 256 ^ 4)]

theorem drop40_fileHeader (fmt : FileFormat) (flags : Nat) (body : List Nat) :
    (fileHeader fmt flags ++ body).drop 40 = body := by
  rw [show (40 : Nat) = (fileHeader fmt flags).length from (length_fileHeader fmt flags).symm,
    List.drop_left]

/-- Claim C1: a sequence of events written with `TDC_writeTimestamps` in
BINARY format and read back with `TDC_readTimestamps` yields the original
(timestamp, channel) sequence exactly; written in COMPRESSED format
(5-byte records, 37-bit timestamp, 3-bit channel, stop channels 1..8 only)
and read back, every timestamp is correct modulo 2^37 ps and every channel
is exact. -/
theorem claim_C1_file_roundtrip (evts : List Event) (flags : Nat) (fmtArg : FileFormat)
    (hf : flags < 2 ^ 32)
    (hbin : ∀ e ∈ evts, -(2 : Int) ^ 63 ≤ e.timestamp ∧ e.timestamp < 2 ^ 63 ∧
      ((1 ≤ e.channel ∧ e.channel ≤ 32) ∨ (100 ≤ e.channel ∧ e.channel ≤ 108)))
    (hcmp : ∀ e ∈ evts, 1 ≤ e.channel ∧ e.channel ≤ 8) :
    (writeTimestamps .binary flags evts).map (fun bytes => readTimestamps bytes fmtArg)
      = some (.ok (.binary, flags, evts)) ∧
    (writeTimestamps .compressed flags evts).map (fun bytes => readTimestamps bytes fmtArg)
      = some (.ok (.compressed, flags, evts.map compressTruncate)) ∧
    (∀ e ∈ evts, (compressTruncate e).timestamp % (2 : Int) ^ 37
        = e.timestamp % (2 : Int) ^ 37 ∧ (compressTruncate e).channel = e.channel) := by
  refine ⟨?_, ?_, ?_⟩
  · have hread : readTimestamps
        (fileHeader .binary flags ++ (evts.map encodeBinaryRecord).flatten) fmtArg
        = .ok (.binary, flags, evts) := by
      rw [readTimestamps]
      rw [parseHeader_fileHeader .binary flags _ (Or.inl rfl) hf]
      rw [drop40_fileHeader, decodeBinaryRecords_encode evts hbin]
    simp [writeTimestamps, hread]
  · have hfilter : evts.filter compressible = evts :=
      List.filter_eq_self.mpr (fun e he => by
        simpa [compressible] using hcmp e he)
    have hread : readTimestamps
        (fileHeader .compressed flags ++
          ((evts.filter compressible).map encodeCompressedRecord).flatten) fmtArg
        = .ok (.compressed, flags, evts.map compressTruncate) := by
      rw [readTimestamps]
      rw [parseHeader_fileHeader .compressed flags _ (Or.inr rfl) hf]
      rw [drop40_fileHeader, hfilter, decodeCompressedRecords_encode evts hcmp]
    simp [writeTimestamps, hread]
  · intro e _
    exact ⟨by simp [compressTruncate, Int.emod_emod_of_dvd], rfl⟩

/-- Witness for C1 at a concrete two-event sequence. -/
theorem claim_C1_file_roundtrip_witness :
    (writeTimestamps .binary 3 [⟨5, 2⟩, ⟨-3, 8⟩]).map
        (fun bytes => readTimestamps bytes .none)
      = some (.ok (.binary, 3, [⟨5, 2⟩, ⟨-3, 8⟩])) ∧
    (writeTimestamps .compressed 3 [⟨5, 2⟩, ⟨-3, 8⟩]).map
        (fun bytes => readTimestamps bytes .none)
      = some (.ok (.compressed, 3, [⟨5, 2⟩, ⟨-3, 8⟩].map compressTruncate)) ∧
    (∀ e ∈ ([⟨5, 2⟩, ⟨-3, 8⟩] : List Event),
      (compressTruncate e).timestamp % (2 : Int) ^ 37 = e.timestamp % (2 : Int) ^ 37 ∧
      (compressTruncate e).channel = e.channel) :=
  claim_C1_file_roundtrip [⟨5, 2⟩, ⟨-3, 8⟩] 3 .none (by norm_num)
    (by decide) (by decide)

/-- Claim C8: if a file given to `TDC_readTimestamps` begins with a
recognizable 40-byte header, the format and the device-feature flags used
for decoding come from that header and the caller-supplied format argument
is ignored; without a valid header, the caller-supplied format is used and
must be the binary format without header (RAW), otherwise the call fails. -/
theorem claim_C8_reader_contract (bytes : List Nat) (fmt1 fmt2 hfmt : FileFormat)
    (flags : Nat) :
    (parseHeader bytes = some (hfmt, flags) →
      readTimestamps bytes fmt1 = readTimestamps bytes fmt2 ∧
      (∃ decoded, readTimestamps bytes fmt1 = .ok (hfmt, flags, decoded))) ∧
    (parseHeader bytes = Option.none → fmt1 = .raw →
      readTimestamps bytes fmt1 = .ok (.raw, 0, decodeBinaryRecords bytes)) ∧
    (parseHeader bytes = Option.none → fmt1 ≠ .raw →
      readTimestamps bytes fmt1 = .error .invalidParameter) := by
  refine ⟨?_, ?_, ?_⟩
  · intro h
    cases hfmt <;> simp [readTimestamps, h]
  · intro h h1
    simp [readTimestamps, h, h1]
  · intro h h1
    simp [readTimestamps, h, h1]

/-- Witness for C8 at a concrete headered file and a concrete headerless
byte string. -/
theorem claim_C8_reader_contract_witness :
    (readTimestamps (fileHeader .binary 0) .compressed
        = readTimestamps (fileHeader .binary 0) .none ∧
      (∃ decoded, readTimestamps (fileHeader .binary 0) .compressed
        = .ok (.binary, 0, decoded))) ∧
    readTimestamps [7] .compressed = .error .invalidParameter :=
  ⟨(claim_C8_reader_contract (fileHeader .binary 0) .compressed .none .binary 0).1
      (by decide),
   (claim_C8_reader_contract [7] .compressed .raw .binary 0).2.2
      (by decide) (by decide)⟩

/-! ## Marker channels (C9) -/

/-- Role of a marker channel number in the event stream and in timestamp
files, as documented for `TDC_writeTimestamps`: 100..103 rising edges, 104
the millisecond timer tick, 105..108 falling edges. -/
inductive MarkerKind where
  | rising
  | tick
  | falling
  deriving DecidableEq, Repr

/-- Classification of marker channel numbers. -/
def markerKind (c : Nat) : Option MarkerKind :=
  if 100 ≤ c ∧ c ≤ 103 then some .rising
  else if c = 104 then some .tick
  else if 105 ≤ c ∧ c ≤ 108 then some .falling
  else Option.none

/-- Counterexample to C9 as stated: the file written by
`TDC_writeTimestamps` in BINARY format for a single event on stop channel 1
carries the channel field value 0 in its record (bytes 48..49 of the file),
because binary formats use 0-based stop channel numbers; so in timestamp
files the stop channels are not numbered 1..32 and the value 0 is not the
start input. -/
theorem claim_C9_counterexample :
    (writeTimestamps .binary 0 [⟨0, 1⟩]).map (fun bytes => (bytes.drop 40).drop 8)
      = some [0, 0] := by decide

/-- Claim C9 (amended): in the event stream, channel 0 is the start input,
1..32 are stop channels and 100..108 are markers (100..103 rising, 104 the
millisecond tick, 105..108 falling); in files written by
`TDC_writeTimestamps`, stop channels are written 0-based (0..31) in the
binary formats and 1-based (1..32) in ASCII, while marker channel numbers
100..108 are written unchanged; no other channel field values occur. -/
theorem claim_C9_channel_numbering (c : Nat) (hc : validStreamChannel c) :
    (1 ≤ c ∧ c ≤ 32 →
      binChannelField c = c - 1 ∧ binChannelField c ≤ 31 ∧ asciiChannelField c = c) ∧
    (100 ≤ c → binChannelField c = c ∧ (markerKind c).isSome = true) ∧
    (markerKind c = some .rising ↔ 100 ≤ c ∧ c ≤ 103) ∧
    (markerKind c = some .tick ↔ c = 104) ∧
    (markerKind c = some .falling ↔ 105 ≤ c ∧ c ≤ 108) := by
  unfold validStreamChannel at hc
  unfold binChannelField asciiChannelField markerKind
  split_ifs <;> simp_all <;> omega

/-- Witness for the amended C9 at the timer-tick channel 104. -/
theorem claim_C9_channel_numbering_witness :
    (1 ≤ 104 ∧ 104 ≤ 32 →
      binChannelField 104 = 104 - 1 ∧ binChannelField 104 ≤ 31 ∧
      asciiChannelField 104 = 104) ∧
    (100 ≤ 104 → binChannelField 104 = 104 ∧ (markerKind 104).isSome = true) ∧
    (markerKind 104 = some .rising ↔ 100 ≤ 104 ∧ 104 ≤ 103) ∧
    (markerKind 104 = some .tick ↔ 104 = 104) ∧
    (markerKind 104 = some .falling ↔ 105 ≤ 104 ∧ 104 ≤ 108) :=
  claim_C9_channel_numbering 104 (by decide)

/-! ## Timestamp ring buffer (C3)

Modelled from the spec: fixed-capacity store of the most recent events,
overwriting oldest-first once full; a reset read clears the valid count. -/

structure RingBuffer where
  capacity : Nat
  events : List Event
  deriving DecidableEq, Repr

/-- Appending one event to the ring buffer, dropping the oldest entry once
the capacity is reached; a no-op while the capacity is 0. -/
def RingBuffer.push (rb : RingBuffer) (e : Event) : RingBuffer :=
  if rb.capacity = 0 then rb
  else
    { rb with events := (rb.events ++ [e]).drop ((rb.events.length + 1) - rb.capacity) }

/-- Pushing a whole sequence of events. -/
def RingBuffer.pushAll (rb : RingBuffer) (evts : List Event) : RingBuffer :=
  evts.foldl RingBuffer.push rb

/-- Behaviour of `TDC_setTimestampBufferSize`: sizes 1..1000000 reallocate
and clear the buffer, out-of-range sizes fail with `InvalidParameter` and
leave the buffer untouched. -/
def TDC_setTimestampBufferSize (size : Int) (rb : RingBuffer) : Rc × RingBuffer :=
  if 1 ≤ size ∧ size ≤ 1000000 then (.ok, { capacity := size.toNat, events := [] })
  else (.invalidParameter, rb)

/-- Behaviour of `TDC_getLastTimestamps`: returns the timestamps, channels
and number of valid entries of the buffered events, clearing the buffer
when `reset` is set; it never fails. The flags `wantTs` and `wantCh` model
non-NULL output pointers; a NULL pointer (false) makes the corresponding
output be ignored without affecting anything else. -/
def TDC_getLastTimestamps (reset wantTs wantCh : Bool) (rb : RingBuffer) :
    (Rc × Option (List Int) × Option (List Nat) × Nat) × RingBuffer :=
  ((.ok,
    if wantTs then some (rb.events.map Event.timestamp) else Option.none,
    if wantCh then some (rb.events.map Event.channel) else Option.none,
    rb.events.length),
   if reset then { rb with events := [] } else rb)

@[simp] theorem RingBuffer.push_capacity (rb : RingBuffer) (e : Event) :
    (rb.push e).capacity = rb.capacity := by
  unfold RingBuffer.push; split <;> rfl

theorem RingBuffer.push_events {rb : RingBuffer} (e : Event) (h : rb.capacity ≠ 0) :
    (rb.push e).events = (rb.events ++ [e]).drop ((rb.events.length + 1) - rb.capacity) := by
  unfold RingBuffer.push
  rw [if_neg h]

theorem RingBuffer.pushAll_events (C : Nat) (hC : 0 < C) :
    ∀ (evts : List Event) (rb : RingBuffer), rb.capacity = C →
      rb.events.length ≤ C →
      (rb.pushAll evts).events
        = (rb.events ++ evts).drop ((rb.events.length + evts.length) - C) := by
  intro evts
  induction evts with
  | nil =>
    intro rb hcap hlen
    have h0 : rb.events.length - C = 0 := by omega
    simp [RingBuffer.pushAll, h0]
  | cons e rest ih =>
    intro rb hcap hlen
    have hne : rb.capacity ≠ 0 := by omega
    have hstep : rb.pushAll (e :: rest) = (rb.push e).pushAll rest := rfl
    set d : Nat := (rb.events.length + 1) - C with hd
    have hdle : d ≤ (rb.events ++ [e]).length := by simp; omega
    have hlen1 : ((rb.events ++ [e]).drop d).length ≤ C := by simp; omega
    have hpe : (rb.push e).events = (rb.events ++ [e]).drop d := by
      rw [RingBuffer.push_events e hne, hcap]
    rw [hstep, ih (rb.push e) (by simp [hcap]) (by rw [hpe]; exact hlen1), hpe]
    rw [← List.drop_append_of_le_length hdle]
    rw [List.drop_drop]
    have harr : (rb.events ++ [e]) ++ rest = rb.events ++ (e :: rest) := by
      rw [List.append_assoc, List.singleton_append]
    rw [harr]
    congr 1
    simp
    omega

/-- Claim C3: for every buffer capacity C with 1 ≤ C ≤ 1000000 set via
`TDC_setTimestampBufferSize`, pushing any sequence of events and reading
with `TDC_getLastTimestamps` (reset = false) yields exactly
min(totalPushed, C) valid entries, and they are the most recently pushed
events (the final suffix of the pushed sequence) in original order. -/
theorem claim_C3_ring_buffer (C : Int) (hC1 : 1 ≤ C) (hC2 : C ≤ 1000000)
    (evts : List Event) (rb0 : RingBuffer) :
    let rb := ((TDC_setTimestampBufferSize C rb0).2).pushAll evts
    let out := (TDC_getLastTimestamps false true true rb).1
    out.1 = .ok ∧
    out.2.2.2 = min evts.length C.toNat ∧
    out.2.1 = some ((evts.drop (evts.length - C.toNat)).map Event.timestamp) ∧
    out.2.2.1 = some ((evts.drop (evts.length - C.toNat)).map Event.channel) := by
  intro rb out
  have hset : (TDC_setTimestampBufferSize C rb0).2
      = { capacity := C.toNat, events := [] } := by
    unfold TDC_setTimestampBufferSize
    rw [if_pos ⟨hC1, hC2⟩]
  have hCp : 0 < C.toNat := by omega
  have hev : rb.events = evts.drop (evts.length - C.toNat) := by
    show (((TDC_setTimestampBufferSize C rb0).2).pushAll evts).events = _
    rw [hset, RingBuffer.pushAll_events C.toNat hCp evts _ rfl (by simp)]
    simp
  refine ⟨rfl, ?_, ?_, ?_⟩
  · show rb.events.length = _
    rw [hev]
    simp
    omega
  · show some (rb.events.map Event.timestamp) = _
    rw [hev]
  · show some (rb.events.map Event.channel) = _
    rw [hev]

/-- Witness for C3: capacity 3, five pushed events. -/
theorem claim_C3_ring_buffer_witness :
    let rb := ((TDC_setTimestampBufferSize 3 ⟨7, [⟨9, 9⟩]⟩).2).pushAll
      [⟨1, 1⟩, ⟨2, 2⟩, ⟨3, 3⟩, ⟨4, 4⟩, ⟨5, 5⟩]
    let out := (TDC_getLastTimestamps false true true rb).1
    out.1 = .ok ∧
    out.2.2.2 = min ([⟨1, 1⟩, ⟨2, 2⟩, ⟨3, 3⟩, ⟨4, 4⟩, ⟨5, 5⟩] : List Event).length (3 : Int).toNat ∧
    out.2.1 = some ((([⟨1, 1⟩, ⟨2, 2⟩, ⟨3, 3⟩, ⟨4, 4⟩, ⟨5, 5⟩] : List Event).drop
      (([⟨1, 1⟩, ⟨2, 2⟩, ⟨3, 3⟩, ⟨4, 4⟩, ⟨5, 5⟩] : List Event).length - (3 : Int).toNat)).map
        Event.timestamp) ∧
    out.2.2.1 = some ((([⟨1, 1⟩, ⟨2, 2⟩, ⟨3, 3⟩, ⟨4, 4⟩, ⟨5, 5⟩] : List Event).drop
      (([⟨1, 1⟩, ⟨2, 2⟩, ⟨3, 3⟩, ⟨4, 4⟩, ⟨5, 5⟩] : List Event).length - (3 : Int).toNat)).map
        Event.channel) :=
  claim_C3_ring_buffer 3 (by decide) (by decide)
    [⟨1, 1⟩, ⟨2, 2⟩, ⟨3, 3⟩, ⟨4, 4⟩, ⟨5, 5⟩] ⟨7, [⟨9, 9⟩]⟩

/-! ## Device configuration (C7)

Modelled from the spec: the configuration setters are implemented in the
vendor binary; their ranges come from the tdcbase.h contract
(coincidence window 0..2,000,000,000 ps, exposure time 0..65535 ms,
channel delay within the device class limit, 50 ns for quTAG MC and
100 ns for quTAG HR). -/

/-- Configuration snapshot held by the engine: coincidence window [ps],
exposure time [ms] and the per-channel delays [ps] (indices 0..32,
0 = start input). -/
structure DeviceParams where
  coincWin : Int
  expTime : Int
  delays : List Int
  deriving DecidableEq, Repr

/-- Maximal absolute channel delay in ps, by device class. -/
def maxDelayPs : DevType → Int
  | .qutagMC => 50000
  | .qutagHR => 100000
  | .noDevice => 100000

/-- Behaviour of `TDC_setCoincidenceWindow`: range 0..2,000,000,000 ps,
out-of-range values fail with `InvalidParameter` and change nothing. -/
def TDC_setCoincidenceWindow (coincWin : Int) (p : DeviceParams) : Rc × DeviceParams :=
  if 0 ≤ coincWin ∧ coincWin ≤ 2000000000 then (.ok, { p with coincWin := coincWin })
  else (.invalidParameter, p)

/-- Behaviour of `TDC_setExposureTime`: range 0..65535 ms, out-of-range
values fail with `InvalidParameter` and change nothing. -/
def TDC_setExposureTime (expTime : Int) (p : DeviceParams) : Rc × DeviceParams :=
  if 0 ≤ expTime ∧ expTime ≤ 65535 then (.ok, { p with expTime := expTime })
  else (.invalidParameter, p)

/-- Behaviour of `TDC_setChannelDelay`: the delay must lie within the
device class limit, out-of-range values fail with `InvalidParameter` and
change nothing. -/
def TDC_setChannelDelay (dev : DevType) (channel : Nat) (delay : Int)
    (p : DeviceParams) : Rc × DeviceParams :=
  if -(maxDelayPs dev) ≤ delay ∧ delay ≤ maxDelayPs dev then
    (.ok, { p with delays := p.delays.set channel delay })
  else (.invalidParameter, p)

/-- Claim C7: every out-of-range configuration call — coincidence window
outside 0..2,000,000,000 ps, exposure time outside 0..65535 ms, channel
delay outside the device limit — fails with `InvalidParameter` and leaves
the previously configured state unchanged. -/
theorem claim_C7_config_errors (p : DeviceParams) (dev : DevType)
    (cw et d : Int) (channel : Nat) :
    (cw < 0 ∨ 2000000000 < cw →
      TDC_setCoincidenceWindow cw p = (.invalidParameter, p)) ∧
    (et < 0 ∨ 65535 < et →
      TDC_setExposureTime et p = (.invalidParameter, p)) ∧
    (d < -(maxDelayPs dev) ∨ maxDelayPs dev < d →
      TDC_setChannelDelay dev channel d p = (.invalidParameter, p)) := by
  refine ⟨?_, ?_, ?_⟩
  · intro h
    unfold TDC_setCoincidenceWindow
    rw [if_neg (by omega)]
  · intro h
    unfold TDC_setExposureTime
    rw [if_neg (by omega)]
  · intro h
    unfold TDC_setChannelDelay
    rw [if_neg (by omega)]

/-- Witness for C7 at concrete out-of-range arguments on a quTAG MC. -/
theorem claim_C7_config_errors_witness :
    TDC_setCoincidenceWindow 2000000001 ⟨100, 100, [0, 0]⟩
      = (.invalidParameter, ⟨100, 100, [0, 0]⟩) ∧
    TDC_setExposureTime (-1) ⟨100, 100, [0, 0]⟩
      = (.invalidParameter, ⟨100, 100, [0, 0]⟩) ∧
    TDC_setChannelDelay .qutagMC 1 50001 ⟨100, 100, [0, 0]⟩
      = (.invalidParameter, ⟨100, 100, [0, 0]⟩) :=
  ⟨(claim_C7_config_errors ⟨100, 100, [0, 0]⟩ .qutagMC 2000000001 (-1) 50001 1).1
      (by decide),
   (claim_C7_config_errors ⟨100, 100, [0, 0]⟩ .qutagMC 2000000001 (-1) 50001 1).2.1
      (by decide),
   (claim_C7_config_errors ⟨100, 100, [0, 0]⟩ .qutagMC 2000000001 (-1) 50001 1).2.2
      (by decide)⟩

/-! ## Heralded g(2) engine (tdchg2.h; C4, C5)

Modelled from the spec: the HG2 engine implementation is part of the
vendor binary; the state and its operations are modelled from spec
section 4.5 and the tdchg2.h contract. -/

/-- Increment of one histogram bin. -/
def incAt (l : List Int) (i : Nat) : List Int := l.set i (l.getD i 0 + 1)

/-- Increment of one cell `m[a][b]` of a 2-D histogram. -/
def incMat (m : List (List Int)) (a b : Nat) : List (List Int) :=
  m.set a (incAt (m.getD a []) b)

/-- State of the HG2 correlation engine: configuration (bin width/count,
idler and signal channels), the pairing state for the current idler event,
the two centered histograms, the 2-D triple coincidence matrix and the two
scalar counters. -/
structure Hg2State where
  enabled : Bool
  binWidth : Nat
  binCount : Nat
  idler : Nat
  channel1 : Nat
  channel2 : Nat
  lastIdler : Option Int
  sig1Bin : Option Nat
  sig2Bin : Option Nat
  coincCounted : Bool
  histSignal1Idler : List Int
  histSignal2Idler : List Int
  tcp2D : List (List Int)
  idlerEventCount : Int
  coincEventCount : Int
  deriving DecidableEq, Repr

/-- The one shared clear operation of the HG2 engine: zeroes both centered
histograms, the tcp2D matrix and both scalar counters, and discards the
pairing state, all in a single transition. -/
def hg2Clear (s : Hg2State) : Hg2State :=
  { s with
    lastIdler := Option.none
    sig1Bin := Option.none
    sig2Bin := Option.none
    coincCounted := false
    histSignal1Idler := List.replicate s.binCount 0
    histSignal2Idler := List.replicate s.binCount 0
    tcp2D := List.replicate s.binCount (List.replicate s.binCount 0)
    idlerEventCount := 0
    coincEventCount := 0 }

/-- Centered histogram bin of a time difference: index binCount/2 is the
zero bin; differences outside the representable window give none. -/
def hg2CenterBin (binWidth binCount : Nat) (diff : Int) : Option Nat :=
  let shifted : Int := diff / (binWidth : Int) + (binCount / 2 : Nat)
  if 0 ≤ shifted ∧ shifted < (binCount : Int) then some shifted.toNat else Option.none

/-- The coincidence gate: a signal1 event within half a bin width of the
idler event. -/
def hg2HalfCoinc (binWidth : Nat) (diff : Int) : Bool :=
  decide (2 * diff.natAbs ≤ binWidth)

/-- Accumulation of one event into the HG2 state: an idler event becomes
the active herald; a signal event within the centered window of the most
recent idler increments its histogram bin; when both signals are
associated with the same idler, the tcp2D cell of their two bins is
incremented; `idlerEventCount` counts idler events, `coincEventCount`
counts idler events with at least one signal1 event within half a bin
width. -/
def hg2Update (e : Event) (s : Hg2State) : Hg2State :=
  if s.enabled = false then s
  else if e.channel = s.idler then
    { s with
      lastIdler := some e.timestamp
      sig1Bin := Option.none
      sig2Bin := Option.none
      coincCounted := false
      idlerEventCount := s.idlerEventCount + 1 }
  else if e.channel = s.channel1 then
    match s.lastIdler with
    | Option.none => s
    | some ti =>
      match hg2CenterBin s.binWidth s.binCount (e.timestamp - ti) with
      | Option.none => s
      | some b =>
        let coincHit := hg2HalfCoinc s.binWidth (e.timestamp - ti)
        let s1 := { s with
          histSignal1Idler := incAt s.histSignal1Idler b
          sig1Bin := some b
          coincEventCount :=
            if coincHit && !s.coincCounted then s.coincEventCount + 1
            else s.coincEventCount
          coincCounted := s.coincCounted || coincHit }
        match s.sig2Bin with
        | some b2 => { s1 with tcp2D := incMat s1.tcp2D b b2 }
        | Option.none => s1
  else if e.channel = s.channel2 then
    match s.lastIdler with
    | Option.none => s
    | some ti =>
      match hg2CenterBin s.binWidth s.binCount (e.timestamp - ti) with
      | Option.none => s
      | some b2 =>
        let s1 := { s with
          histSignal2Idler := incAt s.histSignal2Idler b2
          sig2Bin := some b2 }
        match s.sig1Bin with
        | some b1 => { s1 with tcp2D := incMat s1.tcp2D b1 b2 }
        | Option.none => s1
  else s

/-- Valid arguments of `TDC_setHg2Params`: bin width 1..1M, bin count
16..64k. -/
def validHg2Params (binWidth binCount : Nat) : Prop :=
  1 ≤ binWidth ∧ binWidth ≤ 1000000 ∧ 16 ≤ binCount ∧ binCount ≤ 65536

instance (bw bc : Nat) : Decidable (validHg2Params bw bc) := by
  unfold validHg2Params; infer_instance

/-- Valid arguments of `TDC_setHg2Input`: channel numbers 1..96. -/
def validHg2Input (idler channel1 channel2 : Nat) : Prop :=
  1 ≤ idler ∧ idler ≤ 96 ∧ 1 ≤ channel1 ∧ channel1 ≤ 96 ∧
  1 ≤ channel2 ∧ channel2 ≤ 96

instance (i c1 c2 : Nat) : Decidable (validHg2Input i c1 c2) := by
  unfold validHg2Input; infer_instance

/-- The operations acting on the HG2 state. -/
inductive Hg2Op where
  | enable (b : Bool)
  | setParams (binWidth binCount : Nat)
  | setInput (idler channel1 channel2 : Nat)
  | reset
  | calcG2 (reset : Bool)
  | calcTcp (reset : Bool)
  | calcTcp1D (reset : Bool)
  | getRaw
  | event (e : Event)

/-- State transition of each HG2 operation. `TDC_enableHg2`,
`TDC_setHg2Params` (on every valid call), `TDC_setHg2Input` (on every
valid call) and `TDC_resetHg2Correlations` run the shared clear, as does
`TDC_calcHg2G2` with reset set; `TDC_calcHg2Tcp`/`TDC_calcHg2Tcp1D` with
reset set clear the tcp2D histogram. -/
def hg2Apply : Hg2Op → Hg2State → Hg2State
  | .enable b, s => hg2Clear { s with enabled := b }
  | .setParams bw bc, s =>
    if validHg2Params bw bc then hg2Clear { s with binWidth := bw, binCount := bc }
    else s
  | .setInput i c1 c2, s =>
    if validHg2Input i c1 c2 then
      hg2Clear { s with idler := i, channel1 := c1, channel2 := c2 }
    else s
  | .reset, s => hg2Clear s
  | .calcG2 r, s => if r then hg2Clear s else s
  | .calcTcp r, s =>
    if r then { s with tcp2D := List.replicate s.binCount (List.replicate s.binCount 0) }
    else s
  | .calcTcp1D r, s =>
    if r then { s with tcp2D := List.replicate s.binCount (List.replicate s.binCount 0) }
    else s
  | .getRaw, s => s
  | .event e, s => hg2Update e s

/-- Behaviour of `TDC_calcHg2Tcp`: the matrix view, buffers[a][b] holding
the triple coincidence count for time differences a and b; fails with
`NotEnabled` while the engine is disabled; reset clears tcp2D afterwards. -/
def TDC_calcHg2Tcp (reset : Bool) (s : Hg2State) :
    Except Rc (List (List Int) × Hg2State) :=
  if s.enabled = false then .error .notEnabled
  else .ok (s.tcp2D, hg2Apply (.calcTcp reset) s)

/-- Behaviour of `TDC_calcHg2Tcp1D`: the flattened view,
buffer[a + b*binCount] holding the triple coincidence count for time
differences a and b, with binCount^2 used elements; fails with
`NotEnabled` while the engine is disabled; reset clears tcp2D
afterwards. -/
def TDC_calcHg2Tcp1D (reset : Bool) (s : Hg2State) :
    Except Rc ((List Int × Nat) × Hg2State) :=
  if s.enabled = false then .error .notEnabled
  else .ok (((List.range (s.binCount * s.binCount)).map
      (fun i => (s.tcp2D.getD (i % s.binCount) []).getD (i / s.binCount) 0),
    s.binCount * s.binCount), hg2Apply (.calcTcp1D reset) s)

theorem getD_map_range {α : Type} (f : Nat → α) (N i : Nat) (d : α) (h : i < N) :
    ((List.range N).map f).getD i d = f i := by
  rw [List.getD_eq_getElem?_getD, List.getElem?_map, List.getElem?_range h]
  rfl

/-- Claim C4: for every accumulated HG2 state and all indices a, b below
binCount, the matrix accessor `TDC_calcHg2Tcp` and the flattened accessor
`TDC_calcHg2Tcp1D` return the same value, buffers[a][b] =
buffer[a + b*binCount]; and reset through either accessor takes the state
to the same once-cleared tcp2D state. -/
theorem claim_C4_tcp_views (s : Hg2State) (r : Bool) (a b : Nat)
    (hen : s.enabled = true) (ha : a < s.binCount) (hb : b < s.binCount) :
    ∃ m s1 buf n s2,
      TDC_calcHg2Tcp r s = .ok (m, s1) ∧
      TDC_calcHg2Tcp1D r s = .ok ((buf, n), s2) ∧
      (m.getD a []).getD b 0 = buf.getD (a + b * s.binCount) 0 ∧
      s1 = s2 ∧
      (r = true → s1 = { s with
        tcp2D := List.replicate s.binCount (List.replicate s.binCount 0) }) ∧
      (r = false → s1 = s) := by
  have hne : ¬ s.enabled = false := by simp [hen]
  refine ⟨s.tcp2D, hg2Apply (.calcTcp r) s,
    (List.range (s.binCount * s.binCount)).map
      (fun i => (s.tcp2D.getD (i % s.binCount) []).getD (i / s.binCount) 0),
    s.binCount * s.binCount, hg2Apply (.calcTcp1D r) s, ?_, ?_, ?_, ?_, ?_, ?_⟩
  · unfold TDC_calcHg2Tcp
    rw [if_neg hne]
  · unfold TDC_calcHg2Tcp1D
    rw [if_neg hne]
  · have hidx : a + b * s.binCount < s.binCount * s.binCount := by
      have h1 : a + b * s.binCount < s.binCount + b * s.binCount := by omega
      have h2 : s.binCount + b * s.binCount = (b + 1) * s.binCount := by ring
      have h3 : (b + 1) * s.binCount ≤ s.binCount * s.binCount :=
        Nat.mul_le_mul_right s.binCount (by omega)
      omega
    rw [getD_map_range _ _ _ _ hidx]
    rw [Nat.add_mul_mod_self_right, Nat.mod_eq_of_lt ha]
    rw [Nat.add_mul_div_right _ _ (by omega : 0 < s.binCount), Nat.div_eq_of_lt ha,
      Nat.zero_add]
  · cases r <;> rfl
  · intro hr
    subst hr
    rfl
  · intro hr
    subst hr
    rfl

/-- Witness for C4 at a concrete accumulated 2x2 state. -/
theorem claim_C4_tcp_views_witness :
    ∃ m s1 buf n s2,
      TDC_calcHg2Tcp true
        ⟨true, 1, 2, 1, 2, 3, Option.none, Option.none, Option.none, false,
          [0, 0], [0, 0], [[1, 2], [3, 4]], 0, 0⟩ = .ok (m, s1) ∧
      TDC_calcHg2Tcp1D true
        ⟨true, 1, 2, 1, 2, 3, Option.none, Option.none, Option.none, false,
          [0, 0], [0, 0], [[1, 2], [3, 4]], 0, 0⟩ = .ok ((buf, n), s2) ∧
      (m.getD 0 []).getD 1 0 = buf.getD (0 + 1 * 2) 0 ∧
      s1 = s2 ∧
      (true = true → s1 =
        ⟨true, 1, 2, 1, 2, 3, Option.none, Option.none, Option.none, false,
          [0, 0], [0, 0], List.replicate 2 (List.replicate 2 0), 0, 0⟩) ∧
      (true = false → s1 =
        ⟨true, 1, 2, 1, 2, 3, Option.none, Option.none, Option.none, false,
          [0, 0], [0, 0], [[1, 2], [3, 4]], 0, 0⟩) :=
  claim_C4_tcp_views
    ⟨true, 1, 2, 1, 2, 3, Option.none, Option.none, Option.none, false,
      [0, 0], [0, 0], [[1, 2], [3, 4]], 0, 0⟩ true 0 1 rfl (by decide) (by decide)

/-! ## Shared clear of the HG2 accumulators (C5) -/

/-- All HG2 accumulator structures and both scalar counters are zero. -/
def hg2Cleared (s : Hg2State) : Prop :=
  s.histSignal1Idler = List.replicate s.binCount 0 ∧
  s.histSignal2Idler = List.replicate s.binCount 0 ∧
  s.tcp2D = List.replicate s.binCount (List.replicate s.binCount 0) ∧
  s.idlerEventCount = 0 ∧
  s.coincEventCount = 0

instance (s : Hg2State) : Decidable (hg2Cleared s) := by
  unfold hg2Cleared; infer_instance

/-- Pointwise order on histogram buffers. -/
def listLE (l1 l2 : List Int) : Prop := List.Forall₂ (· ≤ ·) l1 l2

/-- Pointwise order on 2-D histogram buffers. -/
def matLE (m1 m2 : List (List Int)) : Prop := List.Forall₂ listLE m1 m2

/-- An HG2 state whose accumulators all grew (or stayed) relative to
another: the description of an operation that never clears accumulated
data. -/
def hg2Dominates (s' s : Hg2State) : Prop :=
  listLE s.histSignal1Idler s'.histSignal1Idler ∧
  listLE s.histSignal2Idler s'.histSignal2Idler ∧
  matLE s.tcp2D s'.tcp2D ∧
  s.idlerEventCount ≤ s'.idlerEventCount ∧
  s.coincEventCount ≤ s'.coincEventCount

theorem listLE_refl (l : List Int) : listLE l l :=
  List.forall₂_same.mpr (fun _ _ => le_refl _)

theorem matLE_refl (m : List (List Int)) : matLE m m :=
  List.forall₂_same.mpr (fun r _ => listLE_refl r)

theorem listLE_incAt (l : List Int) (i : Nat) : listLE l (incAt l i) := by
  induction l generalizing i with
  | nil => exact List.Forall₂.nil
  | cons x xs ih =>
    cases i with
    | zero =>
      exact List.Forall₂.cons (by simp [List.getD]) (listLE_refl xs)
    | succ j =>
      exact List.Forall₂.cons (le_refl x) (by simpa [incAt, List.getD] using ih j)

theorem matLE_incMat (m : List (List Int)) (a b : Nat) : matLE m (incMat m a b) := by
  induction m generalizing a with
  | nil => exact List.Forall₂.nil
  | cons r rs ih =>
    cases a with
    | zero =>
      exact List.Forall₂.cons (by simpa [incMat, List.getD] using listLE_incAt r b)
        (matLE_refl rs)
    | succ j =>
      exact List.Forall₂.cons (listLE_refl r) (by simpa [incMat, List.getD] using ih j)

theorem hg2Dominates_refl (s : Hg2State) : hg2Dominates s s :=
  ⟨listLE_refl _, listLE_refl _, matLE_refl _, le_refl _, le_refl _⟩

/-- Accumulating one event never clears any HG2 accumulator: every buffer
entry and both counters only grow or stay. -/
theorem hg2Update_dominates (e : Event) (s : Hg2State) :
    hg2Dominates (hg2Update e s) s := by
  unfold hg2Update
  by_cases hen : s.enabled = false
  · rw [if_pos hen]
    exact hg2Dominates_refl s
  rw [if_neg hen]
  by_cases hid : e.channel = s.idler
  · rw [if_pos hid]
    refine ⟨listLE_refl _, listLE_refl _, matLE_refl _, ?_, le_refl _⟩
    change s.idlerEventCount ≤ s.idlerEventCount + 1
    omega
  rw [if_neg hid]
  by_cases hc1 : e.channel = s.channel1
  · rw [if_pos hc1]
    cases hli : s.lastIdler with
    | none => exact hg2Dominates_refl s
    | some ti =>
      dsimp only
      cases hcb : hg2CenterBin s.binWidth s.binCount (e.timestamp - ti) with
      | none => exact hg2Dominates_refl s
      | some b =>
        dsimp only
        cases hs2 : s.sig2Bin with
        | some b2 =>
          dsimp only
          refine ⟨listLE_incAt _ _, listLE_refl _, matLE_incMat _ _ _, le_refl _, ?_⟩
          split
          · change s.coincEventCount ≤ s.coincEventCount + 1
            omega
          · exact le_refl _
        | none =>
          dsimp only
          refine ⟨listLE_incAt _ _, listLE_refl _, matLE_refl _, le_refl _, ?_⟩
          split
          · change s.coincEventCount ≤ s.coincEventCount + 1
            omega
          · exact le_refl _
  rw [if_neg hc1]
  by_cases hc2 : e.channel = s.channel2
  · rw [if_pos hc2]
    cases hli : s.lastIdler with
    | none => exact hg2Dominates_refl s
    | some ti =>
      dsimp only
      cases hcb : hg2CenterBin s.binWidth s.binCount (e.timestamp - ti) with
      | none => exact hg2Dominates_refl s
      | some b2 =>
        dsimp only
        cases hs1 : s.sig1Bin with
        | some b1 =>
          exact ⟨listLE_refl _, listLE_incAt _ _, matLE_incMat _ _ _, le_refl _, le_refl _⟩
        | none =>
          exact ⟨listLE_refl _, listLE_incAt _ _, matLE_refl _, le_refl _, le_refl _⟩
  rw [if_neg hc2]
  exact hg2Dominates_refl s

/-- A concrete accumulated HG2 state used to exhibit clears. -/
def hg2Sample : Hg2State :=
  { enabled := true
    binWidth := 1
    binCount := 16
    idler := 1
    channel1 := 2
    channel2 := 3
    lastIdler := Option.none
    sig1Bin := Option.none
    sig2Bin := Option.none
    coincCounted := false
    histSignal1Idler := incAt (List.replicate 16 0) 3
    histSignal2Idler := List.replicate 16 0
    tcp2D := List.replicate 16 (List.replicate 16 0)
    idlerEventCount := 5
    coincEventCount := 2 }

/-- Counterexample to C5 as stated: the accumulators are also cleared by a
`TDC_setHg2Params` call whose parameter values are unchanged (no parameter
change: the sample state already has binWidth 1 and binCount 16) and by
`TDC_calcHg2G2` called with its reset flag — both outside the four
triggers listed by the claim, refuting "never at any other time". -/
theorem claim_C5_counterexample :
    hg2Sample.binWidth = 1 ∧ hg2Sample.binCount = 16 ∧
    hg2Sample.idlerEventCount = 5 ∧ ¬ hg2Cleared hg2Sample ∧
    hg2Cleared (hg2Apply (.setParams 1 16) hg2Sample) ∧
    hg2Cleared (hg2Apply (.calcG2 true) hg2Sample) := by decide

/-- Claim C5 (amended): the HG2 accumulators (both centered histograms,
tcp2D) and both scalar counters are cleared by one shared clear operation
which runs on every `TDC_enableHg2` call, every valid `TDC_setHg2Params`
call, every valid `TDC_setHg2Input` call, on `TDC_resetHg2Correlations`,
and on `TDC_calcHg2G2` with reset set; `TDC_calcHg2Tcp`/`TDC_calcHg2Tcp1D`
with reset set clear the tcp2D accumulator only; no other operation
clears or diminishes any accumulator; the clear is one atomic transition,
so no partially-cleared state is observable. -/
theorem claim_C5_shared_clear (s : Hg2State) (b : Bool) (bw bc i c1 c2 : Nat)
    (e : Event) (hp : validHg2Params bw bc) (hi : validHg2Input i c1 c2) :
    hg2Cleared (hg2Apply (.enable b) s) ∧
    hg2Cleared (hg2Apply (.setParams bw bc) s) ∧
    hg2Cleared (hg2Apply (.setInput i c1 c2) s) ∧
    hg2Cleared (hg2Apply .reset s) ∧
    hg2Cleared (hg2Apply (.calcG2 true) s) ∧
    (hg2Apply (.calcTcp true) s).tcp2D
      = List.replicate s.binCount (List.replicate s.binCount 0) ∧
    (hg2Apply (.calcTcp1D true) s).tcp2D
      = List.replicate s.binCount (List.replicate s.binCount 0) ∧
    hg2Apply .getRaw s = s ∧
    hg2Apply (.calcG2 false) s = s ∧
    hg2Apply (.calcTcp false) s = s ∧
    hg2Apply (.calcTcp1D false) s = s ∧
    hg2Dominates (hg2Apply (.event e) s) s := by
  refine ⟨?_, ?_, ?_, ?_, ?_, rfl, rfl, rfl, rfl, rfl, rfl, hg2Update_dominates e s⟩
  · exact ⟨rfl, rfl, rfl, rfl, rfl⟩
  · show hg2Cleared (if validHg2Params bw bc then _ else s)
    rw [if_pos hp]
    exact ⟨rfl, rfl, rfl, rfl, rfl⟩
  · show hg2Cleared (if validHg2Input i c1 c2 then _ else s)
    rw [if_pos hi]
    exact ⟨rfl, rfl, rfl, rfl, rfl⟩
  · exact ⟨rfl, rfl, rfl, rfl, rfl⟩
  · exact ⟨rfl, rfl, rfl, rfl, rfl⟩

/-- Witness for the amended C5 at the sample state and concrete valid
arguments. -/
theorem claim_C5_shared_clear_witness :
    hg2Cleared (hg2Apply (.enable false) hg2Sample) ∧
    hg2Cleared (hg2Apply (.setParams 30000 41) hg2Sample) ∧
    hg2Cleared (hg2Apply (.setInput 1 2 4) hg2Sample) ∧
    hg2Cleared (hg2Apply .reset hg2Sample) ∧
    hg2Cleared (hg2Apply (.calcG2 true) hg2Sample) ∧
    (hg2Apply (.calcTcp true) hg2Sample).tcp2D
      = List.replicate hg2Sample.binCount (List.replicate hg2Sample.binCount 0) ∧
    (hg2Apply (.calcTcp1D true) hg2Sample).tcp2D
      = List.replicate hg2Sample.binCount (List.replicate hg2Sample.binCount 0) ∧
    hg2Apply .getRaw hg2Sample = hg2Sample ∧
    hg2Apply (.calcG2 false) hg2Sample = hg2Sample ∧
    hg2Apply (.calcTcp false) hg2Sample = hg2Sample ∧
    hg2Apply (.calcTcp1D false) hg2Sample = hg2Sample ∧
    hg2Dominates (hg2Apply (.event ⟨0, 2⟩) hg2Sample) hg2Sample :=
  claim_C5_shared_clear hg2Sample false 30000 41 1 2 4 ⟨0, 2⟩ (by decide) (by decide)

/-! ## Coincidence counters (C6)

Modelled from the spec: the coincidence counting engine is part of the
vendor binary; modelled from spec section 4.3 and the tdcbase.h contract:
per exposure period, singles for channels 0..32 and all 2..5-way
coincidences over stop channels 1..5, events being coincident when their
timestamps lie within the coincidence window of one another (symmetric,
inclusive); at each exposure boundary the working counts are snapshotted
and reset and the update-generation counter is incremented. -/

/-- Timestamps of the events of one exposure period on a given channel. -/
def chanTimes (evts : List (Int × Nat)) (c : Nat) : List Int :=
  (evts.filter (fun e => decide (e.2 = c))).map (fun e => e.1)

/-- All ways of picking one event per channel of a channel set. -/
def pickOnePerChannel (evts : List (Int × Nat)) : List Nat → List (List Int)
  | [] => [[]]
  | c :: cs =>
    (chanTimes evts c).flatMap (fun t => (pickOnePerChannel evts cs).map (t :: ·))

/-- Whether all picked timestamps lie pairwise within the coincidence
window (symmetric, inclusive: the boundary case counts). -/
def withinWindow (w : Nat) (ts : List Int) : Bool :=
  ts.all (fun a => ts.all (fun b => decide ((a - b).natAbs ≤ w)))

/-- Number of coincidences of a channel set within one exposure period. -/
def coincCount (w : Nat) (evts : List (Int × Nat)) (cs : List Nat) : Nat :=
  ((pickOnePerChannel evts cs).filter (withinWindow w)).length

/-- The 26 coincidence channel groups in the documented order of
`TDC_getCoincCounters`. -/
def coincGroups : List (List Nat) :=
  [[1, 2], [1, 3], [2, 3], [1, 4], [2, 4], [3, 4], [1, 5], [2, 5], [3, 5], [4, 5],
   [1, 2, 3], [1, 2, 4], [1, 3, 4], [2, 3, 4], [1, 2, 5], [1, 3, 5], [2, 3, 5],
   [1, 4, 5], [2, 4, 5], [3, 4, 5],
   [1, 2, 3, 4], [1, 2, 3, 5], [1, 2, 4, 5], [1, 3, 4, 5], [2, 3, 4, 5],
   [1, 2, 3, 4, 5]]

/-- The 59 counter values of one exposure period: singles for channels
0..32 followed by the 26 coincidence groups. -/
def coincCounters (w : Nat) (evts : List (Int × Nat)) : List Nat :=
  (List.range 33).map (fun c => (evts.filter (fun e => decide (e.2 = c))).length)
    ++ coincGroups.map (coincCount w evts)

/-- State of the coincidence counting engine: the configured window and
exposure time, the working events of the running exposure period, the
most recently snapshotted counters and the update-generation counter. -/
structure CoincState where
  window : Nat
  expTime : Nat
  working : List (Int × Nat)
  counters : List Nat
  updates : Nat
  deriving DecidableEq, Repr

/-- Accumulation of one event into the running exposure period. -/
def coincAdd (e : Event) (s : CoincState) : CoincState :=
  { s with working := s.working ++ [(e.timestamp, e.channel)] }

/-- Exposure-period rollover: the working counts are snapshotted into the
externally visible counters, the working set is reset and the
update-generation counter is incremented. -/
def coincRollover (s : CoincState) : CoincState :=
  { s with
    counters := coincCounters s.window s.working
    working := []
    updates := s.updates + 1 }

/-- Behaviour of `TDC_getCoincCounters`: returns the most recent snapshot
and the number of updates since the last call, then clears the update
count; never fails. The flags model non-NULL output pointers. -/
def TDC_getCoincCounters (wantData wantUpdates : Bool) (s : CoincState) :
    (Rc × Option (List Nat) × Option Nat) × CoincState :=
  ((.ok,
    if wantData then some s.counters else Option.none,
    if wantUpdates then some s.updates else Option.none),
   { s with updates := 0 })

/-- The fully evaluated counter list for an exposure holding exactly one
event on channel 2 and one on channel 3 within the window. -/
def pair23Counters : List Nat :=
  [0, 0, 1, 1] ++ List.replicate 29 0 ++ [0, 0, 1] ++ List.replicate 23 0

theorem coincCounters_empty (w : Nat) : coincCounters w [] = List.replicate 59 0 := by
  rfl

/-- Claim C6: an exposure period holding exactly two events, one on
channel 2 and one on channel 3, with timestamp difference at most the
coincidence window (boundary inclusive), makes the 2/3 pair counter
(index 35) equal 1 — one more than for an empty exposure — while every
other coincidence counter and every single counter of an uninvolved
channel stays 0, and `TDC_getCoincCounters` reports exactly these values
after the exposure rollover. -/
theorem claim_C6_pair_coincidence (w : Nat) (t2 t3 : Int) (et : Nat)
    (cprev : List Nat) (u : Nat) (h : (t2 - t3).natAbs ≤ w) :
    coincCounters w [(t2, 2), (t3, 3)] = pair23Counters ∧
    (coincCounters w [(t2, 2), (t3, 3)]).getD 35 0
      = (coincCounters w []).getD 35 0 + 1 ∧
    (∀ i, i < 59 → i ≠ 2 → i ≠ 3 → i ≠ 35 →
      (coincCounters w [(t2, 2), (t3, 3)]).getD i 0 = (coincCounters w []).getD i 0) ∧
    ((TDC_getCoincCounters true true
        (coincRollover ⟨w, et, [(t2, 2), (t3, 3)], cprev, u⟩)).1).2.1
      = some pair23Counters := by
  have hsym : (t3 - t2).natAbs ≤ w := by omega
  have hmain : coincCounters w [(t2, 2), (t3, 3)] = pair23Counters := by
    have hrange : List.range 33
        = [0, 1, 2, 3, 4, 5, 6, 7, 8, 9, 10, 11, 12, 13, 14, 15, 16, 17, 18, 19,
           20, 21, 22, 23, 24, 25, 26, 27, 28, 29, 30, 31, 32] := by rfl
    have hexp : pair23Counters
        = [0, 0, 1, 1, 0, 0, 0, 0, 0, 0, 0, 0, 0, 0, 0, 0, 0, 0, 0, 0, 0, 0, 0,
           0, 0, 0, 0, 0, 0, 0, 0, 0, 0,
           0, 0, 1, 0, 0, 0, 0, 0, 0, 0,
           0, 0, 0, 0, 0, 0, 0, 0, 0, 0, 0, 0, 0, 0, 0, 0] := by rfl
    rw [hexp]
    unfold coincCounters coincGroups coincCount withinWindow
    rw [hrange]
    simp [pickOnePerChannel, chanTimes, h, hsym]
  refine ⟨hmain, ?_, ?_, ?_⟩
  · rw [hmain, coincCounters_empty]
    rfl
  · intro i hi h2 h3 h35
    rw [hmain, coincCounters_empty]
    unfold pair23Counters
    interval_cases i <;> simp_all
  · show (if true = true then some (coincCounters w [(t2, 2), (t3, 3)]) else Option.none) = _
    rw [if_pos rfl, hmain]

/-- Witness for C6 at the window boundary: window 10 ps, timestamps 0 and
-10. -/
theorem claim_C6_pair_coincidence_witness :
    coincCounters 10 [((0 : Int), 2), ((-10 : Int), 3)] = pair23Counters ∧
    (coincCounters 10 [((0 : Int), 2), ((-10 : Int), 3)]).getD 35 0
      = (coincCounters 10 []).getD 35 0 + 1 ∧
    (∀ i, i < 59 → i ≠ 2 → i ≠ 3 → i ≠ 35 →
      (coincCounters 10 [((0 : Int), 2), ((-10 : Int), 3)]).getD i 0
        = (coincCounters 10 []).getD i 0) ∧
    ((TDC_getCoincCounters true true
        (coincRollover ⟨10, 100, [((0 : Int), 2), ((-10 : Int), 3)], [], 0⟩)).1).2.1
      = some pair23Counters :=
  claim_C6_pair_coincidence 10 0 (-10) 100 [] 0 (by decide)

/-! ## Start-stop histograms and the engine state (C2)

Modelled from the spec: the histogram engine and the freeze controller are
part of the vendor binary; modelled from spec sections 4.4 and 2
(FreezeController) and the tdcbase.h contract of `TDC_freezeBuffers`:
while frozen, no events are added to the software histograms, the HG2
correlation functions or the timestamp buffer, while the coincidence
counters are unaffected; freezing never clears anything. -/

/-- One start-stop (or multistop) time-difference histogram. -/
structure PairHist where
  startCh : Nat
  stopCh : Nat
  lastStart : Option Int
  sawStop : Bool
  bins : List Nat
  overflow : Nat
  deriving DecidableEq, Repr

/-- Accumulation of one event into a pair histogram: a start event arms
the pairing state; a stop event with an armed start bins the time
difference (single-stop mode counts only the first stop per start),
out-of-range differences incrementing the overflow counter. -/
def pairHistUpdate (binWidth binCount : Nat) (single : Bool) (e : Event)
    (h : PairHist) : PairHist :=
  if e.channel = h.startCh then
    { h with lastStart := some e.timestamp, sawStop := false }
  else if e.channel = h.stopCh then
    match h.lastStart with
    | Option.none => h
    | some t0 =>
      if single && h.sawStop then h
      else
        if 0 ≤ e.timestamp - t0 ∧ e.timestamp - t0 < (binWidth : Int) * (binCount : Int)
        then
          { h with
            bins := h.bins.set ((e.timestamp - t0) / (binWidth : Int)).toNat
              (h.bins.getD ((e.timestamp - t0) / (binWidth : Int)).toNat 0 + 1)
            sawStop := true }
        else { h with overflow := h.overflow + 1, sawStop := true }
  else h

/-- State of the histogram engine: shared bin parameters, the operating
mode and the configured pair histograms. -/
structure HistState where
  binWidth : Nat
  binCount : Nat
  singleStop : Bool
  pairs : List PairHist
  deriving DecidableEq, Repr

/-- Accumulation of one event into every configured pair histogram. -/
def histUpdate (e : Event) (s : HistState) : HistState :=
  { s with pairs := s.pairs.map (pairHistUpdate s.binWidth s.binCount s.singleStop e) }

/-- The whole engine state fanned out to by one incoming event: the freeze
flag, the timestamp ring buffer, the histogram engine, the HG2 engine and
the coincidence counters. -/
structure EngineState where
  frozen : Bool
  rb : RingBuffer
  hist : HistState
  hg2 : Hg2State
  coinc : CoincState
  deriving DecidableEq, Repr

/-- Fan-out of one event: while frozen, the ring buffer, the histograms
and the HG2 state are left untouched; the coincidence counters always
accumulate. -/
def processEvent (e : Event) (s : EngineState) : EngineState :=
  { s with
    rb := if s.frozen then s.rb else s.rb.push e
    hist := if s.frozen then s.hist else histUpdate e s.hist
    hg2 := if s.frozen then s.hg2 else hg2Update e s.hg2
    coinc := coincAdd e s.coinc }

/-- Fan-out of a sequence of events. -/
def processEvents (evts : List Event) (s : EngineState) : EngineState :=
  evts.foldl (fun st e => processEvent e st) s

/-- Behaviour of `TDC_freezeBuffers`: sets or clears the freeze flag and
nothing else — in particular it clears no accumulator. -/
def TDC_freezeBuffers (freeze : Bool) (s : EngineState) : EngineState :=
  { s with frozen := freeze }

/-- Coincidence accumulation of a sequence of events. -/
def coincAddAll (evts : List Event) (c : CoincState) : CoincState :=
  evts.foldl (fun st e => coincAdd e st) c

/-- Histogram accumulation of a sequence of events. -/
def histUpdateAll (evts : List Event) (h : HistState) : HistState :=
  evts.foldl (fun st e => histUpdate e st) h

/-- HG2 accumulation of a sequence of events. -/
def hg2UpdateAll (evts : List Event) (h : Hg2State) : Hg2State :=
  evts.foldl (fun st e => hg2Update e st) h

theorem processEvents_frozen_flag (evts : List Event) (s : EngineState) :
    (processEvents evts s).frozen = s.frozen := by
  induction evts generalizing s with
  | nil => rfl
  | cons e rest ih => exact ih (processEvent e s)

theorem processEvents_coinc (evts : List Event) (s : EngineState) :
    (processEvents evts s).coinc = coincAddAll evts s.coinc := by
  induction evts generalizing s with
  | nil => rfl
  | cons e rest ih =>
    show (processEvents rest (processEvent e s)).coinc = _
    rw [ih (processEvent e s)]
    rfl

theorem processEvents_frozen (evts : List Event) (s : EngineState)
    (h : s.frozen = true) :
    (processEvents evts s).rb = s.rb ∧
    (processEvents evts s).hist = s.hist ∧
    (processEvents evts s).hg2 = s.hg2 := by
  induction evts generalizing s with
  | nil => exact ⟨rfl, rfl, rfl⟩
  | cons e rest ih =>
    have hpe : processEvent e s = { s with coinc := coincAdd e s.coinc } := by
      unfold processEvent
      rw [h]
      rfl
    show (processEvents rest (processEvent e s)).rb = s.rb ∧
      (processEvents rest (processEvent e s)).hist = s.hist ∧
      (processEvents rest (processEvent e s)).hg2 = s.hg2
    rw [hpe]
    exact ih { s with coinc := coincAdd e s.coinc } h

theorem processEvents_active (evts : List Event) (s : EngineState)
    (h : s.frozen = false) :
    (processEvents evts s).rb = s.rb.pushAll evts ∧
    (processEvents evts s).hist = histUpdateAll evts s.hist ∧
    (processEvents evts s).hg2 = hg2UpdateAll evts s.hg2 := by
  induction evts generalizing s with
  | nil => exact ⟨rfl, rfl, rfl⟩
  | cons e rest ih =>
    have hpe : processEvent e s
        = { s with
            rb := s.rb.push e
            hist := histUpdate e s.hist
            hg2 := hg2Update e s.hg2
            coinc := coincAdd e s.coinc } := by
      unfold processEvent
      rw [h]
      rfl
    show (processEvents rest (processEvent e s)).rb = s.rb.pushAll (e :: rest) ∧
      (processEvents rest (processEvent e s)).hist = histUpdateAll (e :: rest) s.hist ∧
      (processEvents rest (processEvent e s)).hg2 = hg2UpdateAll (e :: rest) s.hg2
    rw [hpe]
    exact ih { s with
      rb := s.rb.push e
      hist := histUpdate e s.hist
      hg2 := hg2Update e s.hg2
      coinc := coincAdd e s.coinc } h

/-- Claim C2: while `TDC_freezeBuffers 1` is active, no event updates the
histograms, the HG2 state or the timestamp ring buffer (reads during the
frozen interval all see the same data), but the coincidence counters keep
accumulating; freezing itself clears nothing, and after
`TDC_freezeBuffers 0` accumulation resumes such that the frozen-interval
events are simply absent: the accumulators equal those of processing the
pre- and post-freeze events alone, so nothing is double-counted. -/
theorem claim_C2_freeze (s : EngineState) (pre mid post : List Event)
    (h : s.frozen = false) :
    let s1 := processEvents pre s
    let s2 := TDC_freezeBuffers true s1
    let s3 := processEvents mid s2
    let s4 := TDC_freezeBuffers false s3
    let s5 := processEvents post s4
    (s3.rb = s1.rb ∧ s3.hist = s1.hist ∧ s3.hg2 = s1.hg2) ∧
    s3.coinc = coincAddAll mid s1.coinc ∧
    (s2.rb = s1.rb ∧ s2.hist = s1.hist ∧ s2.hg2 = s1.hg2 ∧ s2.coinc = s1.coinc ∧
     s4.rb = s3.rb ∧ s4.hist = s3.hist ∧ s4.hg2 = s3.hg2 ∧ s4.coinc = s3.coinc) ∧
    (s5.rb = (processEvents (pre ++ post) s).rb ∧
     s5.hist = (processEvents (pre ++ post) s).hist ∧
     s5.hg2 = (processEvents (pre ++ post) s).hg2) := by
  intro s1 s2 s3 s4 s5
  have h2 : s2.frozen = true := rfl
  have h3 := processEvents_frozen mid s2 h2
  have h2acc : s2.rb = s1.rb ∧ s2.hist = s1.hist ∧ s2.hg2 = s1.hg2 ∧
      s2.coinc = s1.coinc := ⟨rfl, rfl, rfl, rfl⟩
  have h4 : s4.frozen = false := rfl
  have h4acc : s4.rb = s3.rb ∧ s4.hist = s3.hist ∧ s4.hg2 = s3.hg2 ∧
      s4.coinc = s3.coinc := ⟨rfl, rfl, rfl, rfl⟩
  have h5 := processEvents_active post s4 h4
  have h1 := processEvents_active pre s h
  have hall := processEvents_active (pre ++ post) s h
  refine ⟨⟨?_, ?_, ?_⟩, ?_, ⟨h2acc.1, h2acc.2.1, h2acc.2.2.1, h2acc.2.2.2,
    h4acc.1, h4acc.2.1, h4acc.2.2.1, h4acc.2.2.2⟩, ⟨?_, ?_, ?_⟩⟩
  · rw [h3.1, h2acc.1]
  · rw [h3.2.1, h2acc.2.1]
  · rw [h3.2.2, h2acc.2.2.1]
  · rw [processEvents_coinc mid s2, h2acc.2.2.2.symm]
  · rw [h5.1, hall.1, h4acc.1, h3.1, h2acc.1, h1.1]
    unfold RingBuffer.pushAll
    rw [List.foldl_append]
  · rw [h5.2.1, hall.2.1, h4acc.2.1, h3.2.1, h2acc.2.1, h1.2.1]
    unfold histUpdateAll
    rw [List.foldl_append]
  · rw [h5.2.2, hall.2.2, h4acc.2.2.1, h3.2.2, h2acc.2.2.1, h1.2.2]
    unfold hg2UpdateAll
    rw [List.foldl_append]

/-- A concrete engine state for witnesses. -/
def engineSample : EngineState :=
  { frozen := false
    rb := { capacity := 2, events := [] }
    hist := { binWidth := 1, binCount := 2, singleStop := true,
              pairs := [{ startCh := 1, stopCh := 2, lastStart := Option.none,
                          sawStop := false, bins := [0, 0], overflow := 0 }] }
    hg2 := hg2Sample
    coinc := { window := 10, expTime := 100, working := [], counters := [], updates := 0 } }

/-- Witness for C2 at a concrete state with one event before, during and
after the frozen interval. -/
theorem claim_C2_freeze_witness :
    let s1 := processEvents [⟨1, 1⟩] engineSample
    let s2 := TDC_freezeBuffers true s1
    let s3 := processEvents [⟨2, 2⟩] s2
    let s4 := TDC_freezeBuffers false s3
    let s5 := processEvents [⟨3, 2⟩] s4
    (s3.rb = s1.rb ∧ s3.hist = s1.hist ∧ s3.hg2 = s1.hg2) ∧
    s3.coinc = coincAddAll [⟨2, 2⟩] s1.coinc ∧
    (s2.rb = s1.rb ∧ s2.hist = s1.hist ∧ s2.hg2 = s1.hg2 ∧ s2.coinc = s1.coinc ∧
     s4.rb = s3.rb ∧ s4.hist = s3.hist ∧ s4.hg2 = s3.hg2 ∧ s4.coinc = s3.coinc) ∧
    (s5.rb = (processEvents ([⟨1, 1⟩] ++ [⟨3, 2⟩]) engineSample).rb ∧
     s5.hist = (processEvents ([⟨1, 1⟩] ++ [⟨3, 2⟩]) engineSample).hist ∧
     s5.hg2 = (processEvents ([⟨1, 1⟩] ++ [⟨3, 2⟩]) engineSample).hg2) :=
  claim_C2_freeze engineSample [⟨1, 1⟩] [⟨2, 2⟩] [⟨3, 2⟩] rfl

/-! ## NULL-tolerant readout accessors (C10)

Modelled from the spec: the readout functions are part of the vendor
binary; the header contract states that every output pointer of
`TDC_getLastTimestamps` (timestamps, channels), the `updates` pointer of
`TDC_getCoincCounters` and all five pointers of `TDC_getHg2Raw` may be
NULL to ignore the corresponding value. NULL-ness is modelled by a false
want-flag, which suppresses that output and nothing else. -/

/-- Behaviour of `TDC_getHg2Raw`: the raw idler and coincidence event
counts, the two centered histograms and the used buffer size (binCount);
fails with `NotEnabled` while the HG2 engine is disabled; every output may
be suppressed by a NULL pointer (false flag). -/
def TDC_getHg2Raw (w1 w2 w3 w4 w5 : Bool) (s : Hg2State) :
    Except Rc (Option Int × Option Int × Option (List Int) × Option (List Int)
      × Option Nat) :=
  if s.enabled = false then .error .notEnabled
  else .ok
    (if w1 then some s.idlerEventCount else Option.none,
     if w2 then some s.coincEventCount else Option.none,
     if w3 then some s.histSignal1Idler else Option.none,
     if w4 then some s.histSignal2Idler else Option.none,
     if w5 then some s.binCount else Option.none)

/-- Claim C10: each readout accessor tolerates NULL for any individual
output pointer: with any subset of outputs suppressed the call still
succeeds, the post-state is the same, and every non-NULL output receives
exactly the value it receives when all pointers are supplied. -/
theorem claim_C10_null_outputs (rb : RingBuffer) (cs : CoincState) (hs : Hg2State)
    (reset wantTs wantCh wantData wantUpd w1 w2 w3 w4 w5 : Bool)
    (hen : hs.enabled = true) :
    (∃ ts ch valid rb2,
      TDC_getLastTimestamps reset true true rb = ((.ok, some ts, some ch, valid), rb2) ∧
      TDC_getLastTimestamps reset wantTs wantCh rb
        = ((.ok, if wantTs then some ts else Option.none,
            if wantCh then some ch else Option.none, valid), rb2)) ∧
    (∃ data upd cs2,
      TDC_getCoincCounters true true cs = ((.ok, some data, some upd), cs2) ∧
      TDC_getCoincCounters wantData wantUpd cs
        = ((.ok, if wantData then some data else Option.none,
            if wantUpd then some upd else Option.none), cs2)) ∧
    (∃ a b c d n,
      TDC_getHg2Raw true true true true true hs
        = .ok (some a, some b, some c, some d, some n) ∧
      TDC_getHg2Raw w1 w2 w3 w4 w5 hs
        = .ok (if w1 then some a else Option.none,
            if w2 then some b else Option.none,
            if w3 then some c else Option.none,
            if w4 then some d else Option.none,
            if w5 then some n else Option.none)) := by
  have hne : ¬ hs.enabled = false := by simp [hen]
  refine ⟨⟨rb.events.map Event.timestamp, rb.events.map Event.channel,
      rb.events.length, if reset then { rb with events := [] } else rb, rfl, rfl⟩,
    ⟨cs.counters, cs.updates, { cs with updates := 0 }, rfl, rfl⟩,
    ⟨hs.idlerEventCount, hs.coincEventCount, hs.histSignal1Idler,
      hs.histSignal2Idler, hs.binCount, ?_, ?_⟩⟩
  · unfold TDC_getHg2Raw
    rw [if_neg hne]
    rfl
  · unfold TDC_getHg2Raw
    rw [if_neg hne]

/-- Witness for C10 at concrete states with a mixed subset of NULL
pointers. -/
theorem claim_C10_null_outputs_witness :
    (∃ ts ch valid rb2,
      TDC_getLastTimestamps true true true ⟨2, [⟨5, 1⟩]⟩
        = ((.ok, some ts, some ch, valid), rb2) ∧
      TDC_getLastTimestamps true false false ⟨2, [⟨5, 1⟩]⟩
        = ((.ok, if false then some ts else Option.none,
            if false then some ch else Option.none, valid), rb2)) ∧
    (∃ data upd cs2,
      TDC_getCoincCounters true true ⟨10, 100, [], [], 3⟩
        = ((.ok, some data, some upd), cs2) ∧
      TDC_getCoincCounters true false ⟨10, 100, [], [], 3⟩
        = ((.ok, if true then some data else Option.none,
            if false then some upd else Option.none), cs2)) ∧
    (∃ a b c d n,
      TDC_getHg2Raw true true true true true hg2Sample
        = .ok (some a, some b, some c, some d, some n) ∧
      TDC_getHg2Raw true true false false false hg2Sample
        = .ok (if true then some a else Option.none,
            if true then some b else Option.none,
            if false then some c else Option.none,
            if false then some d else Option.none,
            if false then some n else Option.none)) :=
  claim_C10_null_outputs ⟨2, [⟨5, 1⟩]⟩ ⟨10, 100, [], [], 3⟩ hg2Sample
    true false false true false true true false false false rfl

end TDC
